import Mathlib

/-
Verification of the Gmail schedule-send enhancer content script
(src/content.js).  The definitions below are a shallow embedding of the
script: wall-clock times are explicit records, the host DOM menu is a list
of items, the asynchronous chrome.storage round trip is an explicit event
interleaving on a system state, and the scheduling driver is a trace of
actions.  JavaScript Date parsing (new Date(string)) is an external host
facility and is modelled as an abstract parameter parse : String -> Option Int
returning epoch milliseconds, none standing for an Invalid Date (NaN).
-/

namespace Gmail

/-! ## Wall-clock time model

A JavaScript Date, viewed through the local-time accessors the script
uses (getHours, getMinutes, setHours, setDate, getTime).  day is an
absolute civil-day index, so setDate(getDate() + 1) is day + 1 regardless
of month rollover. -/

structure LocalTime where
  day : Nat
  hour : Nat
  minute : Nat
  second : Nat
  millis : Nat
deriving Repr, DecidableEq

/-- Epoch-style total order on wall-clock values, in milliseconds. -/
def LocalTime.toMillis (t : LocalTime) : Nat :=
  (((t.day * 24 + t.hour) * 60 + t.minute) * 60 + t.second) * 1000 + t.millis

/-- A Date produced by the host clock: every component in its JS range. -/
def LocalTime.wellFormed (t : LocalTime) : Prop :=
  t.hour < 24 ∧ t.minute < 60 ∧ t.second < 60 ∧ t.millis < 1000

instance (t : LocalTime) : Decidable t.wellFormed := by
  unfold LocalTime.wellFormed; infer_instance

/-- JS Date.prototype.setHours(h, m, s, ms) with in-range arguments. -/
def jsSetHours (t : LocalTime) (h m s ms : Nat) : LocalTime :=
  { t with hour := h, minute := m, second := s, millis := ms }

/-- JS Date.prototype.setMinutes(m) with an in-range argument. -/
def jsSetMinutes (t : LocalTime) (m : Nat) : LocalTime :=
  { t with minute := m }

/-- JS setDate(getDate() + n): advances n civil days. -/
def jsAddDays (t : LocalTime) (n : Nat) : LocalTime :=
  { t with day := t.day + n }

/-- src/content.js lines 122-142, calculateTomorrowMorningRandom.
randomMinutes stands for Math.floor(Math.random() * 60), an integer
in [0, 59]. -/
def calculateTomorrowMorningRandom (now : LocalTime) (randomMinutes : Nat) :
    LocalTime :=
  let targetDate := now
  let targetDate :=
    if 0 ≤ now.hour ∧ now.hour < 8 then
      jsSetHours targetDate 8 0 0 0
    else
      jsSetHours (jsAddDays targetDate 1) 8 0 0 0
  jsSetMinutes targetDate randomMinutes

/-! ## Menu items

The children of the date-picker menu (.ZkmAeb[role=menu]).  Every child,
host-rendered or injected clone, carries the generic item signature
.Az[role=menuitem]; the injected ones additionally carry their marker
class, modelled by a dedicated constructor. -/

inductive MenuItem where
  | tomorrowRandom : MenuItem
  | lastCancelled : MenuItem
  | host : Nat → MenuItem
deriving Repr, DecidableEq

/-- querySelector for a marker class inside the menu: does a child with
this identity exist. -/
def hasItem : List MenuItem → MenuItem → Bool
  | [], _ => false
  | x :: xs, a => if x = a then true else hasItem xs a

/-- Number of children equal to a given item (used to state the
at-most-once injection invariant). -/
def countItem : List MenuItem → MenuItem → Nat
  | [], _ => 0
  | x :: xs, a => (if x = a then 1 else 0) + countItem xs a

/-- insertAdjacentElement afterend on the first
.tomorrow-morning-random-option child (src/content.js line 422). -/
def insertAfterTR : List MenuItem → List MenuItem
  | [] => []
  | x :: xs =>
    if x = MenuItem.tomorrowRandom then
      x :: MenuItem.lastCancelled :: xs
    else
      x :: insertAfterTR xs

/-- src/content.js lines 419-425: the last-cancelled clone goes directly
after the tomorrow-morning-random option when present, else becomes the
first child. -/
def injectLCPosition (children : List MenuItem) : List MenuItem :=
  if hasItem children MenuItem.tomorrowRandom then
    insertAfterTR children
  else
    MenuItem.lastCancelled :: children

/-- src/content.js line 548: the tomorrow-morning-random clone is always
inserted before the first child. -/
def injectTRPosition (children : List MenuItem) : List MenuItem :=
  MenuItem.tomorrowRandom :: children

/-! ## System state and event interleaving

The content script runs on a single cooperative event queue.  The only
suspension point in the injection path is the chrome.storage.local.get
round trip inside injectLastCancelledTimeOption, so the script is
embedded as atomic steps on an explicit state: the synchronous prefix of
that function (up to issuing the read), the storage callback, the fully
synchronous injectTomorrowMorningRandomOption, the host creating or
destroying a menu node, and the cancellation-capture write to storage.
Menu instances are numbered by creation order (their generation); a
pending storage callback remembers the generation of the node it
captured, mirroring the closed-over datePickerMenu reference. -/

structure MenuInst where
  /-- dataset.lastCancelledInjected = "true" (truthy values only). -/
  lcFlag : Bool
  /-- dataset.tomorrowRandomInjected = "true". -/
  trFlag : Bool
  /-- the menu children, in document order. -/
  children : List MenuItem
deriving Repr, DecidableEq

/-- A freshly rendered host menu node: empty dataset, host items only. -/
def freshMenu (hostCount : Nat) : MenuInst :=
  ⟨false, false, (List.range hostCount).map MenuItem.host⟩

structure SysState where
  /-- every menu instance ever created; the index is its generation. -/
  menus : List MenuInst
  /-- generation of the currently open menu, if one is in the document. -/
  live : Option Nat
  /-- chrome.storage.local value under the key scheduled time. -/
  store : Option String
  /-- generations captured by outstanding storage.get callbacks. -/
  pending : List Nat
deriving Repr, DecidableEq

def initState : SysState := ⟨[], none, none, []⟩

inductive Event where
  /-- the host renders a fresh picker menu with hostCount native items. -/
  | createMenu (hostCount : Nat)
  /-- the host removes the picker menu from the document. -/
  | destroyMenu
  /-- cancellation capture (saveScheduledTime) or initial absence. -/
  | setStore (v : Option String)
  /-- synchronous prefix of injectLastCancelledTimeOption
  (src/content.js lines 253-277). -/
  | enterLC
  /-- the storage.get callback of injectLastCancelledTimeOption resumes
  (lines 277-325); i picks the pending callback, now is Date.now then. -/
  | resumeLC (i : Nat) (now : Int)
  /-- injectTomorrowMorningRandomOption runs to completion
  (lines 436-554). -/
  | runTR
deriving Repr

/-- One cooperative turn.  parse models new Date(string).getTime, with
none for an Invalid Date. -/
def applyEvent (parse : String → Option Int) (s : SysState) (e : Event) :
    SysState :=
  match e with
  | Event.createMenu hostCount =>
    { s with menus := s.menus ++ [freshMenu hostCount],
             live := some s.menus.length }
  | Event.destroyMenu => { s with live := none }
  | Event.setStore v => { s with store := v }
  | Event.enterLC =>
    match s.live with
    | none => s
    | some g =>
      match s.menus[g]? with
      | none => s
      | some m =>
        -- line 263: flag or marker element already present
        if m.lcFlag || hasItem m.children MenuItem.lastCancelled then s
        else
          -- line 269: claim the instance before the asynchronous read
          let m1 := { m with lcFlag := true }
          -- line 271: template lookup .Az[role=menuitem]
          if m.children.isEmpty then
            { s with menus := s.menus.set g m1 }
          else
            { s with menus := s.menus.set g m1,
                     pending := s.pending ++ [g] }
  | Event.resumeLC i now =>
    match s.pending[i]? with
    | none => s
    | some g =>
      let s0 := { s with pending := s.pending.eraseIdx i }
      match s0.menus[g]? with
      | none => s0
      | some m =>
        -- line 280: the captured node must still be the live menu
        if s0.live ≠ some g then
          { s0 with menus := s0.menus.set g ({ m with lcFlag := false }) }
        -- line 287: recheck for the marker element
        else if hasItem m.children MenuItem.lastCancelled then s0
        else
          match s0.store with
          | none =>
            -- line 293: no saved time, release the claim
            { s0 with menus := s0.menus.set g ({ m with lcFlag := false }) }
          | some str =>
            match parse str with
            | none =>
              -- line 303: Invalid Date, release the claim
              { s0 with menus := s0.menus.set g ({ m with lcFlag := false }) }
            | some t =>
              -- line 316: now >= savedTimeDate means stale
              if t ≤ now then
                { s0 with menus := s0.menus.set g ({ m with lcFlag := false }) }
              else
                -- line 324: injectMenuItemWithTime
                { s0 with menus := s0.menus.set g
                                     ({ m with
                                        children := injectLCPosition m.children,
                                        lcFlag := true }) }
  | Event.runTR =>
    match s.live with
    | none => s
    | some g =>
      match s.menus[g]? with
      | none => s
      | some m =>
        -- line 445: flag check
        if m.trFlag then s
        -- line 450: element check sets the flag and returns
        else if hasItem m.children MenuItem.tomorrowRandom then
          { s with menus := s.menus.set g ({ m with trFlag := true }) }
        -- line 455: template lookup
        else if m.children.isEmpty then s
        else
          -- lines 548-551: insert at the front and set the flag
          { s with menus := s.menus.set g
                              ({ m with
                                 children := injectTRPosition m.children,
                                 trFlag := true }) }

/-- A whole execution: fold the turns over the initial state. -/
def run (parse : String → Option Int) (events : List Event) : SysState :=
  events.foldl (applyEvent parse) initState

/-! ## Scheduling driver

fillDatePickerAndSchedule and its nested retry closure tryToSetDate
(src/content.js lines 162-248), embedded as the trace of externally
visible actions the driver performs.  The host environment is abstracted
by fieldsFound (whether both the Date and Time inputs are in the
document when attempt n fires) and scheduleButtonFound. -/

inductive DriverAction where
  /-- clicking the Pick date and time menu item (line 172). -/
  | clickPickDateTime
  /-- attempt number n fires after its setTimeout delay (line 244). -/
  | attemptQuery (attempt : Nat) (delay : Nat)
  /-- writing the formatted date into the Date input (lines 199-206). -/
  | writeDate
  /-- writing the formatted time into the Time input (lines 210-218). -/
  | writeTime
  /-- clicking the Schedule send confirm button (line 228). -/
  | clickScheduleSend
  /-- log: the Pick date and time item is absent (line 165). -/
  | logNoPickItem
  /-- log: max attempts reached, inputs never found (line 242). -/
  | logMaxAttempts
  /-- log: Schedule send button not found (line 230). -/
  | logNoScheduleButton
deriving Repr, DecidableEq

def DriverAction.isAttemptQuery : DriverAction → Bool
  | DriverAction.attemptQuery _ _ => true
  | _ => false

/-- The success branch (lines 199-232): write both fields, then click
the confirm control when the text match finds it. -/
def successActions (scheduleButtonFound : Bool) : List DriverAction :=
  [DriverAction.writeDate, DriverAction.writeTime] ++
    (if scheduleButtonFound then [DriverAction.clickScheduleSend]
     else [DriverAction.logNoScheduleButton])

/-- src/content.js lines 175-245, tryToSetDate(attempt, maxAttempts),
with the counter rephrased structurally: remaining stands for
maxAttempts - attempt, so the attempt < maxAttempts guard of line 239 is
remaining > 0.  Each attempt fires after a 200 * attempt delay, queries
the two inputs, writes them and confirms on success, retries while the
guard holds, and stops with a log once the cap is reached. -/
def tryToSetDateGo (fieldsFound : Nat → Bool) (scheduleButtonFound : Bool) :
    Nat → Nat → List DriverAction
  | attempt, 0 =>
    DriverAction.attemptQuery attempt (200 * attempt) ::
      (if fieldsFound attempt then successActions scheduleButtonFound
       else [DriverAction.logMaxAttempts])
  | attempt, Nat.succ rem =>
    DriverAction.attemptQuery attempt (200 * attempt) ::
      (if fieldsFound attempt then successActions scheduleButtonFound
       else tryToSetDateGo fieldsFound scheduleButtonFound (attempt + 1) rem)

/-- The call of line 175 with its default arguments attempt = 1,
maxAttempts = 15. -/
def tryToSetDate (fieldsFound : Nat → Bool) (scheduleButtonFound : Bool)
    (attempt maxAttempts : Nat) : List DriverAction :=
  tryToSetDateGo fieldsFound scheduleButtonFound attempt
    (maxAttempts - attempt)

/-- src/content.js lines 162-248: locate the Pick date and time item,
click it, and start the retry loop with attempt 1 and cap 15. -/
def fillDatePickerAndSchedule (pickItemPresent : Bool)
    (fieldsFound : Nat → Bool) (scheduleButtonFound : Bool) :
    List DriverAction :=
  if pickItemPresent then
    DriverAction.clickPickDateTime ::
      tryToSetDate fieldsFound scheduleButtonFound 1 15
  else
    [DriverAction.logNoPickItem]

/-! ## The randomized option and its refresh control

The injected tomorrow-morning-random menu item (src/content.js lines
461-545): its dataset.randomTime (epoch millis of the target), its
rendered time label (modelled as the LocalTime it displays), plus the
surrounding menu state, and the two click listeners involved when the
user clicks inside the item. -/

structure RandomOption where
  /-- dataset.randomTime, epoch milliseconds of the stored target. -/
  randomTimeMillis : Nat
  /-- the wall-clock value the time label renders. -/
  displayTime : LocalTime
deriving Repr, DecidableEq

structure MenuView where
  randOpt : RandomOption
  /-- the other children of the menu. -/
  siblings : List MenuItem
  lcFlag : Bool
  trFlag : Bool
deriving Repr, DecidableEq

inductive ClickTarget where
  | refreshBtn
  | optionBody
deriving Repr, DecidableEq

/-- The refresh-button listener (lines 509-524): recompute a random
target, store it, update only the time text node; it calls
stopPropagation, returned as the Bool. -/
def refreshClick (now : LocalTime) (randomMinutes : Nat) (v : MenuView) :
    MenuView × Bool :=
  let newTime := calculateTomorrowMorningRandom now randomMinutes
  ({ v with randOpt := ⟨newTime.toMillis, newTime⟩ }, true)

/-- The menu items own click listener (lines 534-545): ignore clicks on
the refresh control, otherwise schedule the stored target; the result is
the epoch-millis argument handed to fillDatePickerAndSchedule, if any. -/
def optionClick (target : ClickTarget) (v : MenuView) : Option Nat :=
  if target = ClickTarget.refreshBtn then none
  else some v.randOpt.randomTimeMillis

/-- DOM dispatch of a click inside the injected item: a click on the
refresh control runs its listener first and, because propagation is
stopped, never reaches the items own listener; a click elsewhere runs
only the items listener. -/
def dispatchClick (target : ClickTarget) (now : LocalTime)
    (randomMinutes : Nat) (v : MenuView) : MenuView × Option Nat :=
  match target with
  | ClickTarget.refreshBtn =>
    let r := refreshClick now randomMinutes v
    if r.2 then (r.1, none) else (r.1, optionClick target r.1)
  | ClickTarget.optionBody => (v, optionClick target v)

/-! ## Helper lemmas about menu children -/

theorem hasItem_iff_countItem_pos (l : List MenuItem) (a : MenuItem) :
    hasItem l a = true ↔ 0 < countItem l a := by
  induction l with
  | nil => simp [hasItem, countItem]
  | cons x xs ih =>
    by_cases hx : x = a
    · simp [hasItem, countItem, hx]
    · simp [hasItem, countItem, hx, ih]

theorem countItem_of_hasItem_false {l : List MenuItem} {a : MenuItem}
    (h : hasItem l a = false) : countItem l a = 0 := by
  by_contra hc
  have : hasItem l a = true := (hasItem_iff_countItem_pos l a).mpr (by omega)
  rw [h] at this
  exact Bool.false_ne_true this

theorem countItem_insertAfterTR_of_mem {l : List MenuItem}
    (h : hasItem l MenuItem.tomorrowRandom = true) (a : MenuItem) :
    countItem (insertAfterTR l) a =
      (if MenuItem.lastCancelled = a then 1 else 0) + countItem l a := by
  induction l with
  | nil => simp [hasItem] at h
  | cons x xs ih =>
    by_cases hx : x = MenuItem.tomorrowRandom
    · subst hx
      simp only [insertAfterTR, if_pos rfl, countItem]
      omega
    · have hxs : hasItem xs MenuItem.tomorrowRandom = true := by
        simpa [hasItem, hx] using h
      simp only [insertAfterTR, if_neg hx, countItem, ih hxs]
      omega

theorem insertAfterTR_of_not_mem {l : List MenuItem}
    (h : hasItem l MenuItem.tomorrowRandom = false) :
    insertAfterTR l = l := by
  induction l with
  | nil => rfl
  | cons x xs ih =>
    by_cases hx : x = MenuItem.tomorrowRandom
    · simp [hasItem, hx] at h
    · have hxs : hasItem xs MenuItem.tomorrowRandom = false := by
        simpa [hasItem, hx] using h
      simp [insertAfterTR, hx, ih hxs]

theorem countItem_injectLCPosition (l : List MenuItem) (a : MenuItem) :
    countItem (injectLCPosition l) a =
      (if MenuItem.lastCancelled = a then 1 else 0) + countItem l a := by
  unfold injectLCPosition
  by_cases h : hasItem l MenuItem.tomorrowRandom = true
  · rw [if_pos h, countItem_insertAfterTR_of_mem h]
  · rw [if_neg h, countItem]

theorem countItem_injectTRPosition (l : List MenuItem) (a : MenuItem) :
    countItem (injectTRPosition l) a =
      (if MenuItem.tomorrowRandom = a then 1 else 0) + countItem l a := by
  rfl

theorem countItem_map_host (l : List Nat) (a : MenuItem)
    (h : ∀ n, MenuItem.host n ≠ a) :
    countItem (l.map MenuItem.host) a = 0 := by
  induction l with
  | nil => rfl
  | cons x xs ih => simp [countItem, h x, ih]

theorem hasItem_append_cons (l r : List MenuItem) (a : MenuItem) :
    hasItem (l ++ a :: r) a = true := by
  induction l with
  | nil => simp [hasItem]
  | cons x xs ih =>
    by_cases hx : x = a <;> simp [hasItem, hx, ih]

theorem insertAfterTR_append {l : List MenuItem} (r : List MenuItem)
    (h : hasItem l MenuItem.tomorrowRandom = false) :
    insertAfterTR (l ++ MenuItem.tomorrowRandom :: r) =
      l ++ MenuItem.tomorrowRandom :: MenuItem.lastCancelled :: r := by
  induction l with
  | nil => simp [insertAfterTR]
  | cons x xs ih =>
    by_cases hx : x = MenuItem.tomorrowRandom
    · simp [hasItem, hx] at h
    · have hxs : hasItem xs MenuItem.tomorrowRandom = false := by
        simpa [hasItem, hx] using h
      simp [insertAfterTR, hx, ih hxs]

theorem hasItem_injectLCPosition (l : List MenuItem) :
    hasItem (injectLCPosition l) MenuItem.lastCancelled = true := by
  rw [hasItem_iff_countItem_pos, countItem_injectLCPosition]
  simp

/-! ## Helper lemmas about the retry loop -/

theorem attemptQuery_not_mem_successActions (sb : Bool) (a d : Nat) :
    DriverAction.attemptQuery a d ∉ successActions sb := by
  cases sb <;> simp [successActions]

theorem filter_isAttemptQuery_successActions (sb : Bool) :
    (successActions sb).filter DriverAction.isAttemptQuery = [] := by
  cases sb <;> rfl

theorem tryToSetDateGo_attempt_bounds (f : Nat → Bool) (sb : Bool) :
    ∀ (remaining attempt a d : Nat),
      DriverAction.attemptQuery a d ∈ tryToSetDateGo f sb attempt remaining →
      d = 200 * a ∧ attempt ≤ a ∧ a ≤ attempt + remaining := by
  intro remaining
  induction remaining with
  | zero =>
    intro attempt a d hmem
    rw [tryToSetDateGo] at hmem
    rcases List.mem_cons.mp hmem with h | h
    · injection h with h1 h2
      subst h1; subst h2
      omega
    · by_cases hf : f attempt
      · rw [if_pos hf] at h
        exact absurd h (attemptQuery_not_mem_successActions sb a d)
      · rw [if_neg hf] at h
        simp at h
  | succ rem ih =>
    intro attempt a d hmem
    rw [tryToSetDateGo] at hmem
    rcases List.mem_cons.mp hmem with h | h
    · injection h with h1 h2
      subst h1; subst h2
      omega
    · by_cases hf : f attempt
      · rw [if_pos hf] at h
        exact absurd h (attemptQuery_not_mem_successActions sb a d)
      · rw [if_neg hf] at h
        have := ih (attempt + 1) a d h
        omega

theorem tryToSetDateGo_attempt_count (f : Nat → Bool) (sb : Bool) :
    ∀ (remaining attempt : Nat),
      ((tryToSetDateGo f sb attempt remaining).filter
          DriverAction.isAttemptQuery).length ≤ remaining + 1 := by
  intro remaining
  induction remaining with
  | zero =>
    intro attempt
    rw [tryToSetDateGo]
    by_cases hf : f attempt
    · simp [hf, List.filter, DriverAction.isAttemptQuery,
            filter_isAttemptQuery_successActions]
    · simp [hf, List.filter, DriverAction.isAttemptQuery]
  | succ rem ih =>
    intro attempt
    rw [tryToSetDateGo]
    by_cases hf : f attempt
    · simp [hf, List.filter, DriverAction.isAttemptQuery,
            filter_isAttemptQuery_successActions]
    · have := ih (attempt + 1)
      simp [hf, List.filter, DriverAction.isAttemptQuery]
      omega

theorem tryToSetDateGo_all_failed (f : Nat → Bool) (sb : Bool)
    (hf : ∀ n, f n = false) :
    ∀ (remaining attempt : Nat),
      DriverAction.writeDate ∉ tryToSetDateGo f sb attempt remaining ∧
      DriverAction.writeTime ∉ tryToSetDateGo f sb attempt remaining ∧
      DriverAction.clickScheduleSend ∉ tryToSetDateGo f sb attempt remaining ∧
      DriverAction.logMaxAttempts ∈ tryToSetDateGo f sb attempt remaining := by
  intro remaining
  induction remaining with
  | zero =>
    intro attempt
    rw [tryToSetDateGo]
    simp [hf attempt]
  | succ rem ih =>
    intro attempt
    rw [tryToSetDateGo]
    have := ih (attempt + 1)
    simp [hf attempt]
    exact ⟨this.1, this.2.1, this.2.2.1, this.2.2.2⟩

/-! ## The at-most-once injection invariant -/

/-- Every menu instance ever created holds at most one copy of each
synthetic option. -/
def injInvariant (s : SysState) : Prop :=
  ∀ (g : Nat) (m : MenuInst), s.menus[g]? = some m →
    countItem m.children MenuItem.lastCancelled ≤ 1 ∧
    countItem m.children MenuItem.tomorrowRandom ≤ 1

theorem forall_getElem?_set {α : Type} (P : α → Prop) (l : List α) (g : Nat)
    (a : α) (h : ∀ (i : Nat) (b : α), l[i]? = some b → P b) (ha : P a) :
    ∀ (i : Nat) (b : α), (l.set g a)[i]? = some b → P b := by
  intro i b hib
  by_cases hgi : g = i
  · subst hgi
    by_cases hgl : g < l.length
    · rw [List.getElem?_set_eq_of_lt a hgl] at hib
      exact (Option.some.inj hib) ▸ ha
    · rw [List.set_eq_of_length_le (Nat.le_of_not_lt hgl)] at hib
      exact h g b hib
  · rw [List.getElem?_set_ne hgi] at hib
    exact h i b hib

theorem applyEvent_preserves_injInvariant (parse : String → Option Int)
    (s : SysState) (e : Event) (h : injInvariant s) :
    injInvariant (applyEvent parse s e) := by
  unfold injInvariant at h ⊢
  cases e with
  | createMenu hostCount =>
    intro g m hgm
    simp only [applyEvent] at hgm
    by_cases hg : g < s.menus.length
    · rw [List.getElem?_append_left hg] at hgm
      exact h g m hgm
    · rw [List.getElem?_append_right (Nat.le_of_not_lt hg)] at hgm
      have hz : g - s.menus.length = 0 := by
        by_contra hnz
        rcases Nat.exists_eq_succ_of_ne_zero hnz with ⟨k, hk⟩
        rw [hk] at hgm
        simp at hgm
      rw [hz] at hgm
      simp at hgm
      subst hgm
      have h1 : countItem (freshMenu hostCount).children
          MenuItem.lastCancelled = 0 :=
        countItem_map_host _ MenuItem.lastCancelled (fun n => by simp)
      have h2 : countItem (freshMenu hostCount).children
          MenuItem.tomorrowRandom = 0 :=
        countItem_map_host _ MenuItem.tomorrowRandom (fun n => by simp)
      omega
  | destroyMenu => exact h
  | setStore v => exact h
  | enterLC =>
    simp only [applyEvent]
    cases hlv : s.live with
    | none => exact h
    | some g0 =>
      dsimp only
      cases hm0 : s.menus[g0]? with
      | none => exact h
      | some m0 =>
        dsimp only
        by_cases hcl :
            (m0.lcFlag || hasItem m0.children MenuItem.lastCancelled) = true
        · rw [if_pos hcl]; exact h
        · rw [if_neg hcl]
          have hP := h g0 m0 hm0
          by_cases hemp : m0.children.isEmpty = true
          · rw [if_pos hemp]
            exact forall_getElem?_set _ s.menus g0
              ({ m0 with lcFlag := true }) h hP
          · rw [if_neg hemp]
            exact forall_getElem?_set _ s.menus g0
              ({ m0 with lcFlag := true }) h hP
  | resumeLC i now =>
    simp only [applyEvent]
    cases hpi : s.pending[i]? with
    | none => exact h
    | some g0 =>
      dsimp only
      cases hm0 : s.menus[g0]? with
      | none => exact h
      | some m0 =>
        dsimp only
        have hP := h g0 m0 hm0
        by_cases hlv : s.live ≠ some g0
        · rw [if_pos hlv]
          exact forall_getElem?_set _ s.menus g0
            ({ m0 with lcFlag := false }) h hP
        · rw [if_neg hlv]
          by_cases hcl : hasItem m0.children MenuItem.lastCancelled = true
          · rw [if_pos hcl]; exact h
          · rw [if_neg hcl]
            cases hst : s.store with
            | none =>
              exact forall_getElem?_set _ s.menus g0
                ({ m0 with lcFlag := false }) h hP
            | some str =>
              dsimp only
              cases hps : parse str with
              | none =>
                exact forall_getElem?_set _ s.menus g0
                  ({ m0 with lcFlag := false }) h hP
              | some t =>
                dsimp only
                by_cases hte : t ≤ now
                · rw [if_pos hte]
                  exact forall_getElem?_set _ s.menus g0
                    ({ m0 with lcFlag := false }) h hP
                · rw [if_neg hte]
                  apply forall_getElem?_set _ s.menus g0
                      ({ m0 with
                         children := injectLCPosition m0.children,
                         lcFlag := true }) h
                  constructor
                  · show countItem (injectLCPosition m0.children)
                      MenuItem.lastCancelled ≤ 1
                    rw [countItem_injectLCPosition]
                    have hz := countItem_of_hasItem_false
                      (Bool.not_eq_true _ ▸ hcl)
                    simp [hz]
                  · show countItem (injectLCPosition m0.children)
                      MenuItem.tomorrowRandom ≤ 1
                    rw [countItem_injectLCPosition]
                    simpa using hP.2
  | runTR =>
    simp only [applyEvent]
    cases hlv : s.live with
    | none => exact h
    | some g0 =>
      dsimp only
      cases hm0 : s.menus[g0]? with
      | none => exact h
      | some m0 =>
        dsimp only
        have hP := h g0 m0 hm0
        by_cases htf : m0.trFlag = true
        · rw [if_pos htf]; exact h
        · rw [if_neg htf]
          by_cases hct : hasItem m0.children MenuItem.tomorrowRandom = true
          · rw [if_pos hct]
            exact forall_getElem?_set _ s.menus g0
              ({ m0 with trFlag := true }) h hP
          · rw [if_neg hct]
            by_cases hemp : m0.children.isEmpty = true
            · rw [if_pos hemp]; exact h
            · rw [if_neg hemp]
              apply forall_getElem?_set _ s.menus g0
                  ({ m0 with
                     children := injectTRPosition m0.children,
                     trFlag := true }) h
              constructor
              · show countItem (injectTRPosition m0.children)
                  MenuItem.lastCancelled ≤ 1
                rw [countItem_injectTRPosition]
                simpa using hP.1
              · show countItem (injectTRPosition m0.children)
                  MenuItem.tomorrowRandom ≤ 1
                rw [countItem_injectTRPosition]
                have hz := countItem_of_hasItem_false
                  (Bool.not_eq_true _ ▸ hct)
                simp [hz]

theorem run_injInvariant (parse : String → Option Int)
    (events : List Event) : injInvariant (run parse events) := by
  have hgen : ∀ (es : List Event) (s : SysState), injInvariant s →
      injInvariant (es.foldl (applyEvent parse) s) := by
    intro es
    induction es with
    | nil => intro s hs; exact hs
    | cons e es2 ih =>
      intro s hs
      exact ih _ (applyEvent_preserves_injInvariant parse s e hs)
  apply hgen
  unfold injInvariant
  intro g m hm
  simp [initState] at hm

/-! ## The full enter plus resume round trip of the cancelled-time
injector -/

theorem enterLC_step (parse : String → Option Int) (s : SysState)
    (g : Nat) (m : MenuInst)
    (hlive : s.live = some g) (hm : s.menus[g]? = some m)
    (hflag : m.lcFlag = false)
    (hnolc : hasItem m.children MenuItem.lastCancelled = false)
    (htempl : m.children.isEmpty = false)
    (hpending : s.pending = []) :
    applyEvent parse s Event.enterLC =
      { s with menus := s.menus.set g ({ m with lcFlag := true }),
               pending := [g] } := by
  simp only [applyEvent, hlive, hm]
  rw [if_neg (by simp [hflag, hnolc]), if_neg (by simp [htempl])]
  simp [hpending]

theorem resumeLC_parsed_step (parse : String → Option Int) (s : SysState)
    (g : Nat) (m : MenuInst) (str : String) (t now : Int)
    (hlive : s.live = some g) (hm : s.menus[g]? = some m)
    (hnolc : hasItem m.children MenuItem.lastCancelled = false)
    (hstore : s.store = some str) (hparse : parse str = some t)
    (hpending : s.pending = [g]) :
    applyEvent parse s (Event.resumeLC 0 now) =
      { s with
        menus := s.menus.set g
          (if now < t then
            { m with children := injectLCPosition m.children,
                     lcFlag := true }
           else { m with lcFlag := false }),
        pending := [] } := by
  have hg : g < s.menus.length := by
    rcases List.getElem?_eq_some.mp hm with ⟨hlt, -⟩
    exact hlt
  simp only [applyEvent, hpending, List.getElem?_cons_zero]
  rw [hm]
  dsimp only
  rw [if_neg (by simp [hlive]), if_neg (by simp [hnolc])]
  rw [hstore]
  dsimp only
  rw [hparse]
  dsimp only
  by_cases hte : t ≤ now
  · rw [if_pos hte, if_neg (by omega)]
    simp
  · rw [if_neg hte, if_pos (by omega)]
    simp

theorem resumeLC_unparseable_step (parse : String → Option Int)
    (s : SysState) (g : Nat) (m : MenuInst) (str : String) (now : Int)
    (hlive : s.live = some g) (hm : s.menus[g]? = some m)
    (hnolc : hasItem m.children MenuItem.lastCancelled = false)
    (hstore : s.store = some str) (hparse : parse str = none)
    (hpending : s.pending = [g]) :
    applyEvent parse s (Event.resumeLC 0 now) =
      { s with menus := s.menus.set g ({ m with lcFlag := false }),
               pending := [] } := by
  simp only [applyEvent, hpending, List.getElem?_cons_zero]
  rw [hm]
  dsimp only
  rw [if_neg (by simp [hlive]), if_neg (by simp [hnolc])]
  rw [hstore]
  dsimp only
  rw [hparse]
  dsimp only
  simp

/-! ## Claim theorems -/

/-- Claim C4: the randomized-morning calculator, invoked at any local
clock time with hour in [0,8), returns a timestamp on the same calendar
day with hour exactly 8 and minute in [0,59]; invoked at any other clock
time, it returns a timestamp on the next calendar day with hour exactly
8 and minute in [0,59]. -/
theorem C4_randomized_morning (now : LocalTime) (r : Nat) (hr : r < 60) :
    (now.hour < 8 →
      (calculateTomorrowMorningRandom now r).day = now.day ∧
      (calculateTomorrowMorningRandom now r).hour = 8 ∧
      (calculateTomorrowMorningRandom now r).minute ≤ 59) ∧
    (8 ≤ now.hour →
      (calculateTomorrowMorningRandom now r).day = now.day + 1 ∧
      (calculateTomorrowMorningRandom now r).hour = 8 ∧
      (calculateTomorrowMorningRandom now r).minute ≤ 59) := by
  unfold calculateTomorrowMorningRandom jsSetHours jsSetMinutes jsAddDays
  constructor
  · intro h
    simp [h]
    omega
  · intro h
    have h8 : ¬ now.hour < 8 := by omega
    simp [h8]
    omega

/-- Witness for C4 at wall clock 03:22:05.009 on day 10, random
minute 34. -/
theorem C4_randomized_morning_witness :
    (34 < 60) ∧
    (((⟨10, 3, 22, 5, 9⟩ : LocalTime).hour < 8 →
      (calculateTomorrowMorningRandom ⟨10, 3, 22, 5, 9⟩ 34).day =
        (⟨10, 3, 22, 5, 9⟩ : LocalTime).day ∧
      (calculateTomorrowMorningRandom ⟨10, 3, 22, 5, 9⟩ 34).hour = 8 ∧
      (calculateTomorrowMorningRandom ⟨10, 3, 22, 5, 9⟩ 34).minute ≤ 59) ∧
     (8 ≤ (⟨10, 3, 22, 5, 9⟩ : LocalTime).hour →
      (calculateTomorrowMorningRandom ⟨10, 3, 22, 5, 9⟩ 34).day =
        (⟨10, 3, 22, 5, 9⟩ : LocalTime).day + 1 ∧
      (calculateTomorrowMorningRandom ⟨10, 3, 22, 5, 9⟩ 34).hour = 8 ∧
      (calculateTomorrowMorningRandom ⟨10, 3, 22, 5, 9⟩ 34).minute ≤ 59)) :=
  ⟨by decide, C4_randomized_morning ⟨10, 3, 22, 5, 9⟩ 34 (by decide)⟩

/-- Claim C10: the randomized-morning calculator always returns an
instant strictly later than the invocation time, and the returned
instant always has zero seconds and zero milliseconds. -/
theorem C10_strictly_future (now : LocalTime) (r : Nat)
    (hv : now.wellFormed) :
    now.toMillis < (calculateTomorrowMorningRandom now r).toMillis ∧
    (calculateTomorrowMorningRandom now r).second = 0 ∧
    (calculateTomorrowMorningRandom now r).millis = 0 := by
  obtain ⟨h1, h2, h3, h4⟩ := hv
  unfold calculateTomorrowMorningRandom jsSetHours jsSetMinutes jsAddDays
    LocalTime.toMillis
  by_cases h : now.hour < 8
  · simp [h]
    omega
  · simp [h]
    omega

/-- Witness for C10 at wall clock 22:10:59.999 on day 3, random
minute 0. -/
theorem C10_strictly_future_witness :
    (⟨3, 22, 10, 59, 999⟩ : LocalTime).wellFormed ∧
    ((⟨3, 22, 10, 59, 999⟩ : LocalTime).toMillis <
      (calculateTomorrowMorningRandom ⟨3, 22, 10, 59, 999⟩ 0).toMillis ∧
     (calculateTomorrowMorningRandom ⟨3, 22, 10, 59, 999⟩ 0).second = 0 ∧
     (calculateTomorrowMorningRandom ⟨3, 22, 10, 59, 999⟩ 0).millis = 0) :=
  ⟨by decide, C10_strictly_future ⟨3, 22, 10, 59, 999⟩ 0 (by decide)⟩

/-- Claim C7: the last-cancelled option is placed directly after the
tomorrow-morning-random option when that option is present in the menu,
and otherwise as the menu first child; the tomorrow-morning-random
option is always inserted as the first child, so when both are injected
together the randomized option precedes the cancelled-time option. -/
theorem C7_insertion_order (children l r : List MenuItem)
    (hl : hasItem l MenuItem.tomorrowRandom = false)
    (hnc : hasItem children MenuItem.tomorrowRandom = false) :
    injectTRPosition children = MenuItem.tomorrowRandom :: children ∧
    injectLCPosition children = MenuItem.lastCancelled :: children ∧
    injectLCPosition (l ++ MenuItem.tomorrowRandom :: r) =
      l ++ MenuItem.tomorrowRandom :: MenuItem.lastCancelled :: r ∧
    injectLCPosition (injectTRPosition children) =
      MenuItem.tomorrowRandom :: MenuItem.lastCancelled :: children := by
  refine ⟨rfl, ?_, ?_, ?_⟩
  · simp [injectLCPosition, hnc]
  · unfold injectLCPosition
    rw [if_pos (hasItem_append_cons l r MenuItem.tomorrowRandom),
      insertAfterTR_append r hl]
  · simp [injectLCPosition, injectTRPosition, hasItem, insertAfterTR]

/-- Witness for C7 with one host item in the menu, and an explicit
split of a menu around its randomized option. -/
theorem C7_insertion_order_witness :
    (hasItem [MenuItem.host 1] MenuItem.tomorrowRandom = false) ∧
    (hasItem [MenuItem.host 0] MenuItem.tomorrowRandom = false) ∧
    (injectTRPosition [MenuItem.host 0] =
      MenuItem.tomorrowRandom :: [MenuItem.host 0] ∧
     injectLCPosition [MenuItem.host 0] =
      MenuItem.lastCancelled :: [MenuItem.host 0] ∧
     injectLCPosition
        ([MenuItem.host 1] ++ MenuItem.tomorrowRandom :: [MenuItem.host 2]) =
      [MenuItem.host 1] ++
        MenuItem.tomorrowRandom :: MenuItem.lastCancelled ::
          [MenuItem.host 2] ∧
     injectLCPosition (injectTRPosition [MenuItem.host 0]) =
      MenuItem.tomorrowRandom :: MenuItem.lastCancelled ::
        [MenuItem.host 0]) :=
  ⟨by decide, by decide,
    C7_insertion_order [MenuItem.host 0] [MenuItem.host 1] [MenuItem.host 2]
      (by decide) (by decide)⟩

/-- Claim C8: activating the refresh control inside the
tomorrow-morning-random option changes only that option displayed time
text and its stored target timestamp; it leaves sibling options and the
menu injection flags unchanged, and it never reaches the option own
click handler, so a refresh triggers no scheduling. -/
theorem C8_refresh_frame (now : LocalTime) (r : Nat) (v : MenuView) :
    (dispatchClick ClickTarget.refreshBtn now r v).1.siblings =
      v.siblings ∧
    (dispatchClick ClickTarget.refreshBtn now r v).1.lcFlag = v.lcFlag ∧
    (dispatchClick ClickTarget.refreshBtn now r v).1.trFlag = v.trFlag ∧
    (dispatchClick ClickTarget.refreshBtn now r v).1.randOpt =
      ⟨(calculateTomorrowMorningRandom now r).toMillis,
       calculateTomorrowMorningRandom now r⟩ ∧
    (dispatchClick ClickTarget.refreshBtn now r v).2 = none ∧
    optionClick ClickTarget.refreshBtn v = none := by
  refine ⟨rfl, rfl, rfl, rfl, rfl, rfl⟩

/-- Claim C5: the retry loop delays attempt n by 200 * n time units,
makes at most 15 attempts, and schedules no attempt beyond the cap. -/
theorem C5_retry_backoff (fieldsFound : Nat → Bool) (sb : Bool) :
    (∀ (a d : Nat),
        DriverAction.attemptQuery a d ∈ tryToSetDate fieldsFound sb 1 15 →
        d = 200 * a ∧ 1 ≤ a ∧ a ≤ 15) ∧
    ((tryToSetDate fieldsFound sb 1 15).filter
        DriverAction.isAttemptQuery).length ≤ 15 := by
  constructor
  · intro a d hmem
    have hb := tryToSetDateGo_attempt_bounds fieldsFound sb 14 1 a d hmem
    omega
  · have hc := tryToSetDateGo_attempt_count fieldsFound sb 14 1
    exact hc

/-- Witness for C5: with the inputs never appearing, attempt 3 fires
after 600 time units and the whole loop stays within 15 attempts. -/
theorem C5_retry_backoff_witness :
    (DriverAction.attemptQuery 3 600 ∈
      tryToSetDate (fun _ => false) true 1 15) ∧
    (600 = 200 * 3 ∧ 1 ≤ 3 ∧ 3 ≤ 15) ∧
    ((tryToSetDate (fun _ => false) true 1 15).filter
        DriverAction.isAttemptQuery).length ≤ 15 :=
  ⟨by decide,
   (C5_retry_backoff (fun _ => false) true).1 3 600 (by decide),
   (C5_retry_backoff (fun _ => false) true).2⟩

/-- Claim C6: if the date and time inputs are absent for the entire
retry budget, the driver writes no input field, activates no confirm
control, and only reports the exhaustion; being a total function of the
trace, it raises no fault. -/
theorem C6_silent_abort (fieldsFound : Nat → Bool) (sb : Bool)
    (hf : ∀ n, fieldsFound n = false) :
    DriverAction.writeDate ∉ fillDatePickerAndSchedule true fieldsFound sb ∧
    DriverAction.writeTime ∉ fillDatePickerAndSchedule true fieldsFound sb ∧
    DriverAction.clickScheduleSend ∉
      fillDatePickerAndSchedule true fieldsFound sb ∧
    DriverAction.logMaxAttempts ∈
      fillDatePickerAndSchedule true fieldsFound sb := by
  have hg := tryToSetDateGo_all_failed fieldsFound sb hf 14 1
  have hsplit : fillDatePickerAndSchedule true fieldsFound sb =
      DriverAction.clickPickDateTime ::
        tryToSetDateGo fieldsFound sb 1 14 := rfl
  rw [hsplit]
  refine ⟨?_, ?_, ?_, List.mem_cons_of_mem _ hg.2.2.2⟩
  · intro hmem
    rcases List.mem_cons.mp hmem with hh | hh
    · exact absurd hh (by simp)
    · exact hg.1 hh
  · intro hmem
    rcases List.mem_cons.mp hmem with hh | hh
    · exact absurd hh (by simp)
    · exact hg.2.1 hh
  · intro hmem
    rcases List.mem_cons.mp hmem with hh | hh
    · exact absurd hh (by simp)
    · exact hg.2.2.1 hh

/-- Witness for C6 with the fields permanently absent. -/
theorem C6_silent_abort_witness :
    (∀ n, (fun (_ : Nat) => false) n = false) ∧
    (DriverAction.writeDate ∉
        fillDatePickerAndSchedule true (fun _ => false) true ∧
     DriverAction.writeTime ∉
        fillDatePickerAndSchedule true (fun _ => false) true ∧
     DriverAction.clickScheduleSend ∉
        fillDatePickerAndSchedule true (fun _ => false) true ∧
     DriverAction.logMaxAttempts ∈
        fillDatePickerAndSchedule true (fun _ => false) true) :=
  ⟨fun _ => rfl, C6_silent_abort (fun _ => false) true (fun _ => rfl)⟩


/-- Claim C1: for every persisted cancelled-time string that parses to
a valid instant, when the picker menu and a template menu item are
present (on a not yet claimed, not yet injected instance), the
last-cancelled-time option is present after the injection round trip if
and only if the current time is strictly before the parsed instant; for
instants equal to now or in the past, no option is inserted. -/
theorem C1_inject_iff_future (parse : String → Option Int) (s : SysState)
    (g : Nat) (m : MenuInst) (str : String) (t now : Int)
    (hlive : s.live = some g) (hm : s.menus[g]? = some m)
    (hflag : m.lcFlag = false)
    (hnolc : hasItem m.children MenuItem.lastCancelled = false)
    (htempl : m.children.isEmpty = false)
    (hstore : s.store = some str) (hparse : parse str = some t)
    (hpending : s.pending = []) :
    ((applyEvent parse (applyEvent parse s Event.enterLC)
        (Event.resumeLC 0 now)).menus[g]?.map
       (fun mm => hasItem mm.children MenuItem.lastCancelled)) =
      some (decide (now < t)) := by
  have hg : g < s.menus.length := by
    rcases List.getElem?_eq_some.mp hm with ⟨hlt, -⟩
    exact hlt
  rw [enterLC_step parse s g m hlive hm hflag hnolc htempl hpending]
  rw [resumeLC_parsed_step parse _ g ({ m with lcFlag := true }) str t now
      (by simp [hlive]) (by simp [List.getElem?_set_eq_of_lt _ hg])
      hnolc (by simp [hstore]) hparse (by simp)]
  rw [show ({ s with
        menus := s.menus.set g ({ m with lcFlag := true }),
        pending := [g] } : SysState).menus = s.menus.set g
          ({ m with lcFlag := true }) from rfl]
  rw [List.getElem?_set_eq_of_lt _ (by rw [List.length_set]; exact hg)]
  by_cases hlt2 : now < t
  · simp [hlt2, hasItem_injectLCPosition]
  · simp [hlt2, hnolc]

/-- Witness for C1: a single-host-item menu, the persisted string
parsing to instant 5, observed at time 3, which is before 5, so the
option is present. -/
theorem C1_inject_iff_future_witness :
    ((⟨[⟨false, false, [MenuItem.host 0]⟩], some 0, some "w", []⟩ :
        SysState).live = some 0 ∧
     (⟨[⟨false, false, [MenuItem.host 0]⟩], some 0, some "w", []⟩ :
        SysState).menus[0]? = some ⟨false, false, [MenuItem.host 0]⟩ ∧
     (⟨false, false, [MenuItem.host 0]⟩ : MenuInst).lcFlag = false ∧
     hasItem [MenuItem.host 0] MenuItem.lastCancelled = false ∧
     ([MenuItem.host 0] : List MenuItem).isEmpty = false ∧
     (fun (_ : String) => some (5 : Int)) "w" = some 5) ∧
    ((applyEvent (fun _ => some (5 : Int))
        (applyEvent (fun _ => some (5 : Int))
          ⟨[⟨false, false, [MenuItem.host 0]⟩], some 0, some "w", []⟩
          Event.enterLC)
        (Event.resumeLC 0 3)).menus[0]?.map
       (fun mm => hasItem mm.children MenuItem.lastCancelled)) =
      some (decide ((3 : Int) < 5)) :=
  ⟨⟨rfl, rfl, rfl, rfl, rfl, rfl⟩,
   C1_inject_iff_future (fun _ => some (5 : Int))
     ⟨[⟨false, false, [MenuItem.host 0]⟩], some 0, some "w", []⟩
     0 ⟨false, false, [MenuItem.host 0]⟩ "w" 5 3
     rfl rfl rfl rfl rfl rfl rfl rfl⟩

/-- Claim C2 (amended): when the injector reads a persisted
cancelled-time value that is unparseable, or that parses to an instant
not strictly in the future, it releases the per-instance claim flag and
aborts without injecting; the persisted record is left in the Store
unchanged (the script never issues a storage remove). -/
theorem C2_stale_abort_amended (parse : String → Option Int)
    (s : SysState) (g : Nat) (m : MenuInst) (str : String) (now : Int)
    (hlive : s.live = some g) (hm : s.menus[g]? = some m)
    (hflag : m.lcFlag = false)
    (hnolc : hasItem m.children MenuItem.lastCancelled = false)
    (htempl : m.children.isEmpty = false)
    (hstore : s.store = some str) (hpending : s.pending = [])
    (hbad : parse str = none ∨ ∃ t, parse str = some t ∧ t ≤ now) :
    (applyEvent parse (applyEvent parse s Event.enterLC)
        (Event.resumeLC 0 now)).store = some str ∧
    (applyEvent parse (applyEvent parse s Event.enterLC)
        (Event.resumeLC 0 now)).menus[g]? =
      some ({ m with lcFlag := false }) := by
  have hg : g < s.menus.length := by
    rcases List.getElem?_eq_some.mp hm with ⟨hlt, -⟩
    exact hlt
  rw [enterLC_step parse s g m hlive hm hflag hnolc htempl hpending]
  rcases hbad with hnoparse | ⟨t, hparse, hte⟩
  · rw [resumeLC_unparseable_step parse _ g ({ m with lcFlag := true })
        str now (by simp [hlive])
        (by simp [List.getElem?_set_eq_of_lt _ hg]) hnolc
        (by simp [hstore]) hnoparse (by simp)]
    refine ⟨by simp [hstore], ?_⟩
    rw [List.getElem?_set_eq_of_lt _ (by rw [List.length_set]; exact hg)]
  · rw [resumeLC_parsed_step parse _ g ({ m with lcFlag := true })
        str t now (by simp [hlive])
        (by simp [List.getElem?_set_eq_of_lt _ hg]) hnolc
        (by simp [hstore]) hparse (by simp)]
    rw [if_neg (by omega)]
    refine ⟨by simp [hstore], ?_⟩
    rw [List.getElem?_set_eq_of_lt _ (by rw [List.length_set]; exact hg)]

/-- Witness for C2 (amended): the persisted string parses to instant 5
but is observed at time 9, so it is stale; the claim flag is released
and the record survives in the Store. -/
theorem C2_stale_abort_amended_witness :
    ((⟨[⟨false, false, [MenuItem.host 0]⟩], some 0, some "w", []⟩ :
        SysState).live = some 0 ∧
     (⟨[⟨false, false, [MenuItem.host 0]⟩], some 0, some "w", []⟩ :
        SysState).menus[0]? = some ⟨false, false, [MenuItem.host 0]⟩ ∧
     (⟨false, false, [MenuItem.host 0]⟩ : MenuInst).lcFlag = false ∧
     hasItem [MenuItem.host 0] MenuItem.lastCancelled = false ∧
     ([MenuItem.host 0] : List MenuItem).isEmpty = false ∧
     ((fun (_ : String) => some (5 : Int)) "w" = none ∨
      ∃ t, (fun (_ : String) => some (5 : Int)) "w" = some t ∧
        t ≤ (9 : Int))) ∧
    ((applyEvent (fun _ => some (5 : Int))
        (applyEvent (fun _ => some (5 : Int))
          ⟨[⟨false, false, [MenuItem.host 0]⟩], some 0, some "w", []⟩
          Event.enterLC)
        (Event.resumeLC 0 9)).store = some "w" ∧
     (applyEvent (fun _ => some (5 : Int))
        (applyEvent (fun _ => some (5 : Int))
          ⟨[⟨false, false, [MenuItem.host 0]⟩], some 0, some "w", []⟩
          Event.enterLC)
        (Event.resumeLC 0 9)).menus[0]? =
      some ⟨false, false, [MenuItem.host 0]⟩) :=
  ⟨⟨rfl, rfl, rfl, rfl, rfl, Or.inr ⟨5, rfl, by decide⟩⟩,
   C2_stale_abort_amended (fun _ => some (5 : Int))
     ⟨[⟨false, false, [MenuItem.host 0]⟩], some 0, some "w", []⟩
     0 ⟨false, false, [MenuItem.host 0]⟩ "w" 9
     rfl rfl rfl rfl rfl rfl rfl (Or.inr ⟨5, rfl, by decide⟩)⟩

/-- Counterexample to C2 as stated: a concrete run in which the
injector reads an unparseable persisted value and finishes its pass,
yet the record is still in the Store afterwards; nothing was deleted,
contradicting the claimed removal. -/
theorem C2_no_store_removal_counterexample :
    (run (fun _ => none)
        [Event.setStore (some "legacy"), Event.createMenu 1,
         Event.enterLC, Event.resumeLC 0 0]).store = some "legacy" ∧
    ¬ (run (fun _ => none)
        [Event.setStore (some "legacy"), Event.createMenu 1,
         Event.enterLC, Event.resumeLC 0 0]).store = none ∧
    (run (fun _ => none)
        [Event.setStore (some "legacy"), Event.createMenu 1,
         Event.enterLC, Event.resumeLC 0 0]).menus[0]? =
      some ⟨false, false, [MenuItem.host 0]⟩ := by
  refine ⟨rfl, by decide, rfl⟩

/-- Claim C3: in every execution, whatever the interleaving of menu
creations, injector entries, storage callbacks, and synchronous
injections, every menu instance ever created holds at most one copy of
each synthetic option. -/
theorem C3_at_most_once (parse : String → Option Int)
    (events : List Event) (g : Nat) (m : MenuInst)
    (hm : (run parse events).menus[g]? = some m) :
    countItem m.children MenuItem.lastCancelled ≤ 1 ∧
    countItem m.children MenuItem.tomorrowRandom ≤ 1 :=
  run_injInvariant parse events g m hm

/-- Witness for C3 on a run with repeated and racing invocations: two
entries race through the storage read, the synchronous injector runs
twice, and a second entry happens after injection; each option still
appears exactly once. -/
theorem C3_at_most_once_witness :
    ((run (fun s => if s = "t" then some 5 else none)
        [Event.setStore (some "t"), Event.createMenu 1, Event.enterLC,
         Event.enterLC, Event.runTR, Event.runTR, Event.resumeLC 0 0,
         Event.enterLC, Event.resumeLC 0 0]).menus[0]? =
      some ⟨true, true,
        [MenuItem.tomorrowRandom, MenuItem.lastCancelled,
         MenuItem.host 0]⟩) ∧
    (countItem [MenuItem.tomorrowRandom, MenuItem.lastCancelled,
        MenuItem.host 0] MenuItem.lastCancelled ≤ 1 ∧
     countItem [MenuItem.tomorrowRandom, MenuItem.lastCancelled,
        MenuItem.host 0] MenuItem.tomorrowRandom ≤ 1) :=
  ⟨by decide,
   C3_at_most_once (fun s => if s = "t" then some 5 else none)
     [Event.setStore (some "t"), Event.createMenu 1, Event.enterLC,
      Event.enterLC, Event.runTR, Event.runTR, Event.resumeLC 0 0,
      Event.enterLC, Event.resumeLC 0 0]
     0 ⟨true, true,
        [MenuItem.tomorrowRandom, MenuItem.lastCancelled,
         MenuItem.host 0]⟩ (by decide)⟩

/-- Claim C9: injection state never leaks across menu instances: a
newly created instance starts with both injection flags unset and no
synthetic children, and a storage callback captured on a different
(previous) instance leaves the live menu record untouched. -/
theorem C9_no_cross_instance_leak (parse : String → Option Int)
    (s : SysState) (hostCount i g h : Nat) (now : Int)
    (hlive : s.live = some h) (hp : s.pending[i]? = some g)
    (hgh : g ≠ h) :
    ((applyEvent parse s (Event.createMenu hostCount)).live =
        some s.menus.length ∧
     (applyEvent parse s
        (Event.createMenu hostCount)).menus[s.menus.length]? =
        some (freshMenu hostCount) ∧
     (freshMenu hostCount).lcFlag = false ∧
     (freshMenu hostCount).trFlag = false ∧
     countItem (freshMenu hostCount).children MenuItem.lastCancelled =
       0 ∧
     countItem (freshMenu hostCount).children MenuItem.tomorrowRandom =
       0) ∧
    (applyEvent parse s (Event.resumeLC i now)).menus[h]? =
      s.menus[h]? := by
  constructor
  · refine ⟨rfl, ?_, rfl, rfl, ?_, ?_⟩
    · exact List.getElem?_concat_length s.menus (freshMenu hostCount)
    · exact countItem_map_host _ _ (fun n => by simp)
    · exact countItem_map_host _ _ (fun n => by simp)
  · simp only [applyEvent, hp]
    cases hmg : s.menus[g]? with
    | none => rfl
    | some m0 =>
      dsimp only
      rw [if_pos (by rw [hlive]
                     intro hc
                     exact hgh (Option.some.inj hc).symm)]
      exact List.getElem?_set_ne hgh

/-- Witness for C9: two instances exist, the live one is generation 1,
and a stale callback captured on generation 0 fires. -/
theorem C9_no_cross_instance_leak_witness :
    ((⟨[⟨false, false, [MenuItem.host 0]⟩, ⟨false, false,
        [MenuItem.host 0]⟩], some 1, none, [0]⟩ : SysState).live =
      some 1 ∧
     (⟨[⟨false, false, [MenuItem.host 0]⟩, ⟨false, false,
        [MenuItem.host 0]⟩], some 1, none, [0]⟩ :
          SysState).pending[0]? = some 0 ∧
     (0 : Nat) ≠ 1) ∧
    (((applyEvent (fun _ => none)
        ⟨[⟨false, false, [MenuItem.host 0]⟩, ⟨false, false,
          [MenuItem.host 0]⟩], some 1, none, [0]⟩
        (Event.createMenu 2)).live = some 2 ∧
      (applyEvent (fun _ => none)
        ⟨[⟨false, false, [MenuItem.host 0]⟩, ⟨false, false,
          [MenuItem.host 0]⟩], some 1, none, [0]⟩
        (Event.createMenu 2)).menus[2]? = some (freshMenu 2) ∧
      (freshMenu 2).lcFlag = false ∧
      (freshMenu 2).trFlag = false ∧
      countItem (freshMenu 2).children MenuItem.lastCancelled = 0 ∧
      countItem (freshMenu 2).children MenuItem.tomorrowRandom = 0) ∧
     (applyEvent (fun _ => none)
        ⟨[⟨false, false, [MenuItem.host 0]⟩, ⟨false, false,
          [MenuItem.host 0]⟩], some 1, none, [0]⟩
        (Event.resumeLC 0 0)).menus[1]? =
      (⟨[⟨false, false, [MenuItem.host 0]⟩, ⟨false, false,
          [MenuItem.host 0]⟩], some 1, none, [0]⟩ :
            SysState).menus[1]?) :=
  ⟨⟨rfl, rfl, by decide⟩,
   C9_no_cross_instance_leak (fun _ => none)
     ⟨[⟨false, false, [MenuItem.host 0]⟩, ⟨false, false,
        [MenuItem.host 0]⟩], some 1, none, [0]⟩
     2 0 0 1 0 rfl rfl (by decide)⟩

end Gmail
